import Mathlib

/-!
Verification of the click ingestion, enrichment and aggregation pipeline of the
LinkProxy / SuperintelligenceURLs repository.

The definitions below are a shallow embedding of the pipeline code:

* `generate_session_id` — from `generate_session_id` in
  `docs/DATA_SCIENCE_ANALYSIS.md` (the session tracking excerpt), including a
  full executable SHA-256 over `Nat` mirroring Python's `hashlib.sha256`.
* `track_click_geo` — from the geolocation guard in `backend/main.py`
  (excerpt in `GEOLOCATION_INVESTIGATION.md`, lines 26-38).
* `get_client_ip` — from `backend/main.py` (excerpt in
  `GEOLOCATION_INVESTIGATION.md`, lines 63-76), including Python truthiness
  of the header values.
* `parse_youtube_url` — from the parser excerpt in
  `docs/DATA_SCIENCE_ANALYSIS.md` (lines 344-364); Python's fallible `int()`
  is modelled by an `Except` result.
* `mv_hour_heatmap`, `mv_video_sources`, `refresh_temporal_analytics` — from
  `supabase/migrations/003_temporal_analytics_minimal.sql`.
* `geographic_analytics` — from `supabase/schema.sql` (lines 223-234).
* `increment_click_count` — from `supabase/schema.sql` (lines 99-107).

Components whose source file is absent from the repository snapshot
(`video_attribution.py`, `geolocation_client.py`, `temporal_features.py`) are
modelled from the specification and carry a doc comment saying so.
-/

namespace LinkProxy

/-! ### Decimal rendering of natural numbers (Python `str(int)`) -/

/-- Decimal digit characters of `n`, most significant first, as produced by
Python's `str()` on a non-negative integer. -/
def decChars (n : Nat) : List Char :=
  if n = 0 then ['0'] else ((Nat.digits 10 n).map Nat.digitChar).reverse

/-- Python `str(n)` for a non-negative integer `n`. -/
def pyStr (n : Nat) : String :=
  String.mk (decChars n)

/-! ### SHA-256 (`hashlib.sha256`), executable over `Nat`

All 32-bit words are `Nat` values kept below `2 ^ 32` by explicit `% w32`.
-/

/-- `2 ^ 32`, the modulus of 32-bit words. -/
def w32 : Nat := 4294967296

/-- Right-rotation of a 32-bit word. -/
def rotr (n x : Nat) : Nat :=
  ((x >>> n) ||| (x <<< (32 - n))) % w32

def sha256SmallSigma0 (x : Nat) : Nat := (rotr 7 x) ^^^ (rotr 18 x) ^^^ (x >>> 3)

def sha256SmallSigma1 (x : Nat) : Nat := (rotr 17 x) ^^^ (rotr 19 x) ^^^ (x >>> 10)

def sha256BigSigma0 (x : Nat) : Nat := (rotr 2 x) ^^^ (rotr 13 x) ^^^ (rotr 22 x)

def sha256BigSigma1 (x : Nat) : Nat := (rotr 6 x) ^^^ (rotr 11 x) ^^^ (rotr 25 x)

/-- SHA-256 choice function; `¬x` is complement within 32 bits. -/
def sha256Ch (x y z : Nat) : Nat := (x &&& y) ^^^ ((x ^^^ 4294967295) &&& z)

def sha256Maj (x y z : Nat) : Nat := (x &&& y) ^^^ (x &&& z) ^^^ (y &&& z)

/-- The 64 SHA-256 round constants of FIPS 180-4 (the fractional parts of
the cube roots of the first 64 primes), written in decimal. -/
def sha256K : List Nat :=
  [1116352408, 1899447441, 3049323471, 3921009573, 961987163,
   1508970993, 2453635748, 2870763221, 3624381080, 310598401,
   607225278, 1426881987, 1925078388, 2162078206, 2614888103,
   3248222580, 3835390401, 4022224774, 264347078, 604807628,
   770255983, 1249150122, 1555081692, 1996064986, 2554220882,
   2821834349, 2952996808, 3210313671, 3336571891, 3584528711,
   113926993, 338241895, 666307205, 773529912, 1294757372,
   1396182291, 1695183700, 1986661051, 2177026350, 2456956037,
   2730485921, 2820302411, 3259730800, 3345764771, 3516065817,
   3600352804, 4094571909, 275423344, 430227734, 506948616,
   659060556, 883997877, 958139571, 1322822218, 1537002063,
   1747873779, 1955562222, 2024104815, 2227730452, 2361852424,
   2428436474, 2756734187, 3204031479, 3329325298]

/-- The eight 32-bit working variables of the SHA-256 state. -/
structure Hash8 where
  a : Nat
  b : Nat
  c : Nat
  d : Nat
  e : Nat
  f : Nat
  g : Nat
  hh : Nat
deriving DecidableEq

/-- SHA-256 initial hash value (FIPS 180-4), in decimal. -/
def sha256InitH : Hash8 :=
  ⟨1779033703, 3144134277, 1013904242, 2773480762,
   1359893119, 2600822924, 528734635, 1541459225⟩

/-- Message padding: append `0x80`, zero bytes, and the 64-bit big-endian bit
length, so the total byte length is a multiple of 64. -/
def sha256Pad (msg : List Nat) : List Nat :=
  let len := msg.length
  let bitLen := 8 * len
  let zeros := (55 + 64 - len % 64) % 64
  msg ++ 0x80 :: List.replicate zeros 0 ++
    [bitLen >>> 56 % 256, bitLen >>> 48 % 256, bitLen >>> 40 % 256,
     bitLen >>> 32 % 256, bitLen >>> 24 % 256, bitLen >>> 16 % 256,
     bitLen >>> 8 % 256, bitLen % 256]

/-- Split a list into chunks of `k + 1` elements (the last chunk may be
shorter). -/
def chunksOf (k : Nat) (l : List α) : List (List α) :=
  match l with
  | [] => []
  | x :: xs => (x :: xs).take (k + 1) :: chunksOf k ((x :: xs).drop (k + 1))
termination_by l.length
decreasing_by
  simp only [List.length_drop, List.length_cons]
  omega

/-- Big-endian 32-bit word from four bytes. -/
def word32OfBytes : List Nat → Nat
  | [b0, b1, b2, b3] => (b0 <<< 24) + (b1 <<< 16) + (b2 <<< 8) + b3
  | _ => 0

/-- The sixteen 32-bit words of a 64-byte block. -/
def sha256Words (block : List Nat) : List Nat :=
  (chunksOf 3 block).map word32OfBytes

/-- Next word of the message schedule, from the current partial schedule. -/
def sha256NextW (ws : List Nat) : Nat :=
  let n := ws.length
  (sha256SmallSigma1 (ws.getD (n - 2) 0) + ws.getD (n - 7) 0 +
   sha256SmallSigma0 (ws.getD (n - 15) 0) + ws.getD (n - 16) 0) % w32

/-- Extend the sixteen block words to the 64-entry message schedule. -/
def sha256Schedule (ws : List Nat) : List Nat :=
  (List.range 48).foldl (fun acc _ => acc ++ [sha256NextW acc]) ws

/-- One SHA-256 compression round, fed a pair of round constant and
schedule word. -/
def sha256Round (st : Hash8) (kw : Nat × Nat) : Hash8 :=
  let t1 := (st.hh + sha256BigSigma1 st.e + sha256Ch st.e st.f st.g +
    kw.1 + kw.2) % w32
  let t2 := (sha256BigSigma0 st.a + sha256Maj st.a st.b st.c) % w32
  ⟨(t1 + t2) % w32, st.a, st.b, st.c, (st.d + t1) % w32, st.e, st.f, st.g⟩

/-- Process one 64-byte block: 64 rounds, then add to the incoming state. -/
def sha256Block (st : Hash8) (block : List Nat) : Hash8 :=
  let r := (sha256K.zip (sha256Schedule (sha256Words block))).foldl sha256Round st
  ⟨(st.a + r.a) % w32, (st.b + r.b) % w32, (st.c + r.c) % w32,
   (st.d + r.d) % w32, (st.e + r.e) % w32, (st.f + r.f) % w32,
   (st.g + r.g) % w32, (st.hh + r.hh) % w32⟩

/-- SHA-256 state after hashing a byte string. -/
def sha256State (msg : List Nat) : Hash8 :=
  (chunksOf 63 (sha256Pad msg)).foldl sha256Block sha256InitH

/-- The 256-bit digest as a natural number (big-endian word concatenation). -/
def hash8ToNat (st : Hash8) : Nat :=
  st.a * 2 ^ 224 + st.b * 2 ^ 192 + st.c * 2 ^ 160 + st.d * 2 ^ 128 +
  st.e * 2 ^ 96 + st.f * 2 ^ 64 + st.g * 2 ^ 32 + st.hh

/-- SHA-256 digest of a byte string, as a natural number below `2 ^ 256`. -/
def sha256 (msg : List Nat) : Nat :=
  hash8ToNat (sha256State msg)

/-- UTF-8 encoding of one character (Python `str.encode()`). -/
def utf8Bytes (c : Char) : List Nat :=
  let n := c.toNat
  if n < 0x80 then [n]
  else if n < 0x800 then
    [0xC0 ||| (n >>> 6), 0x80 ||| (n &&& 0x3F)]
  else if n < 0x10000 then
    [0xE0 ||| (n >>> 12), 0x80 ||| ((n >>> 6) &&& 0x3F), 0x80 ||| (n &&& 0x3F)]
  else
    [0xF0 ||| (n >>> 18), 0x80 ||| ((n >>> 12) &&& 0x3F),
     0x80 ||| ((n >>> 6) &&& 0x3F), 0x80 ||| (n &&& 0x3F)]

/-- UTF-8 bytes of a string (Python `str.encode()`). -/
def strBytes (s : String) : List Nat :=
  s.data.foldr (fun c acc => utf8Bytes c ++ acc) []

/-- Lowercase hexadecimal rendering of a 256-bit digest
(`hashlib`'s `hexdigest()`), 64 characters with leading zeros. -/
def hexDigest (n : Nat) : String :=
  String.mk ((List.range 64).map (fun i => Nat.digitChar (n / 16 ^ (63 - i) % 16)))

/-! ### Session Identity Generator (`generate_session_id`)

From `docs/DATA_SCIENCE_ANALYSIS.md`:

  `time_bucket = int(datetime.now().timestamp() / (time_window_mins * 60))`
  `session_key = f"{ip}_{user_agent}_{time_bucket}"`
  `return hashlib.sha256(session_key.encode()).hexdigest()[:16]`

Timestamps are seconds since the epoch as `Nat`; `int()` of the positive
quotient is `Nat` division. -/

/-- The fixed-width time bucket of a timestamp (seconds), for a window of
`timeWindowMins` minutes. -/
def timeBucket (nowTs : Nat) (timeWindowMins : Nat) : Nat :=
  nowTs / (timeWindowMins * 60)

/-- The pre-hash session key string `f"{ip}_{user_agent}_{time_bucket}"`. -/
def sessionKeyString (ip userAgent : String) (bucket : Nat) : String :=
  ip ++ "_" ++ userAgent ++ "_" ++ pyStr bucket

/-- `generate_session_id` from the session-tracking excerpt: SHA-256 of the
session key string, hex, truncated to 16 characters. -/
def generate_session_id (ip userAgent : String) (nowTs : Nat)
    (timeWindowMins : Nat := 30) : String :=
  (hexDigest (sha256 (strBytes
    (sessionKeyString ip userAgent (timeBucket nowTs timeWindowMins))))).take 16

/-! ### Python string primitives

`String.splitOn` and friends in core Lean use well-founded recursion, which
the kernel cannot evaluate; the pipeline's string operations are therefore
modelled by structurally recursive functions over `List Char`, mirroring the
Python primitives (`str.split`, `str.join`, `int`) they embed. -/

/-- Worker for `pySplit`: structural recursion on a fuel bounded by the
input length (each step consumes at least one character for a non-empty
separator). -/
def splitGo (sep : List Char) : Nat → List Char → List Char → List (List Char)
  | 0, l, acc => [acc.reverse ++ l]
  | fuel + 1, l, acc =>
    match l with
    | [] => [acc.reverse]
    | c :: rest =>
      if sep.isPrefixOf (c :: rest) then
        acc.reverse :: splitGo sep fuel ((c :: rest).drop sep.length) []
      else
        splitGo sep fuel rest (c :: acc)

/-- Python `s.split(sep)` for a non-empty separator. -/
def pySplit (s sep : String) : List String :=
  (splitGo sep.data (s.data.length + 1) s.data []).map String.mk

/-- Python `sep.join(parts)`. -/
def pyJoin (sep : String) : List String → String
  | [] => ""
  | x :: xs => xs.foldl (fun r y => r ++ sep ++ y) x

/-! ### URL parsing (`urllib.parse.urlparse` / `parse_qs`)

A model of the parts of `urlparse` the pipeline uses: the fragment is cut at
the first `#`, the query starts after the first `?` before that, and for URLs
of the shape `scheme://netloc/path` the host and path are split at the first
`/` after `://`. `parse_qs` keeps only `key=value` pairs with a non-empty
value (its default `keep_blank_values=False`); percent-decoding is not
modelled (no input here uses it). -/

structure ParsedUrl where
  netloc : String
  path : String
  query : String
deriving DecidableEq

def urlparse (url : String) : ParsedUrl :=
  let noFrag := (pySplit url "#").headD ""
  let preQ := (pySplit noFrag "?").headD ""
  let query :=
    match pySplit noFrag "?" with
    | _ :: rest@(_ :: _) => pyJoin "?" rest
    | _ => ""
  match pySplit preQ "://" with
  | _scheme :: rest@(_ :: _) =>
    let after := pyJoin "://" rest
    let netloc := (pySplit after "/").headD ""
    let path :=
      match pySplit after "/" with
      | _ :: rest2@(_ :: _) => "/" ++ pyJoin "/" rest2
      | _ => ""
    ⟨netloc, path, query⟩
  | _ => ⟨"", preQ, query⟩

/-- `parse_qs` as an ordered list of key/value pairs (Python keeps one list
per key in insertion order; `params.get(k, [d])[0]` reads the first value). -/
def parse_qsl (q : String) : List (String × String) :=
  (pySplit q "&").foldr
    (fun part acc =>
      match pySplit part "=" with
      | [] => acc
      | [_] => acc
      | k :: vs =>
        let v := pyJoin "=" vs
        if v = "" then acc else (k, v) :: acc)
    []

/-- Python's substring containment `sub in s`, for a non-empty `sub`:
`s.splitOn sub` has more than one part exactly when `sub` occurs in `s`. -/
def strContains (s sub : String) : Bool :=
  (pySplit s sub).length ≠ 1

/-- First value of a query parameter: `params.get(k, [default])[0]`. -/
def getParamFirst (params : List (String × String)) (k : String) : Option String :=
  match params.filter (fun p => p.1 = k) with
  | [] => none
  | p :: _ => some p.2

/-- Python `int(s)` on a string: succeeds exactly on decimal numerals (the
sign/whitespace forms `int` also accepts do not occur here), raising
`ValueError` — modelled as `none` — otherwise. -/
def pyInt (s : String) : Option Nat :=
  if s.data ≠ [] ∧ s.data.all (fun c => c.isDigit) then
    some (s.data.foldl (fun n c => 10 * n + (c.toNat - 48)) 0)
  else none

/-! ### YouTube referrer parser (`parse_youtube_url`)

From the parser excerpt in `docs/DATA_SCIENCE_ANALYSIS.md` (lines 344-364).
The Python function performs unguarded `int(...)` conversions on the `t` and
`index` query parameters, so it can raise `ValueError`; the embedding returns
`Except Unit YtData`, with `.error ()` for the raising executions. -/

structure YtData where
  video_id : Option String
  video_timestamp : Nat
  playlist_id : Option String
  yt_index : Nat
  yt_feature : Option String
  yt_app : Option String
deriving DecidableEq

def parse_youtube_url (url : String) : Except Unit YtData :=
  let parsed := urlparse url
  let params := parse_qsl parsed.query
  let video_id : Option String :=
    if strContains parsed.netloc "youtu.be" then
      some (String.mk (parsed.path.data.drop 1))
    else
      getParamFirst params "v"
  let ts :=
    match getParamFirst params "t" with
    | none => some 0
    | some s => pyInt s
  let idx :=
    match getParamFirst params "index" with
    | none => some 0
    | some s => pyInt s
  match ts, idx with
  | some t, some i =>
    .ok ⟨video_id, t, getParamFirst params "list", i,
         getParamFirst params "feature", getParamFirst params "app"⟩
  | _, _ => .error ()

/-! ### Platform classification and video attribution -/

inductive Platform where
  | youtube
  | tiktok
  | instagram
  | twitter
  | linkedin
  | noPlatform
deriving DecidableEq

/-- Modelled from the spec: `video_attribution.py` is not in the repository
snapshot; §4.1 matches the referrer host against a static table of known
platform domains (youtube.com, youtu.be, tiktok.com, instagram.com,
twitter.com/x.com, linkedin.com). -/
def platformOfNetloc (netloc : String) : Platform :=
  if strContains netloc "youtube.com" then .youtube
  else if strContains netloc "youtu.be" then .youtube
  else if strContains netloc "tiktok.com" then .tiktok
  else if strContains netloc "instagram.com" then .instagram
  else if strContains netloc "twitter.com" then .twitter
  else if strContains netloc "x.com" then .twitter
  else if strContains netloc "linkedin.com" then .linkedin
  else .noPlatform

structure VideoAttribution where
  platform : Platform
  video_id : Option String
  video_timestamp_seconds : Nat
  sub_feature : Option String
deriving DecidableEq

/-- Modelled from the spec: the orchestrating referrer parser
(`video_attribution.py`) is not in the snapshot; per §4.1 it selects the
platform from the referrer host and runs the YouTube sub-parser (the
`parse_youtube_url` excerpt) for YouTube hosts; anything else yields
`platform = none`. -/
def video_attribution_of (referer : String) : VideoAttribution :=
  match platformOfNetloc (urlparse referer).netloc, parse_youtube_url referer with
  | .youtube, .ok y => ⟨.youtube, y.video_id, y.video_timestamp, y.yt_feature⟩
  | .youtube, .error _ => ⟨.noPlatform, none, 0, none⟩
  | p, _ => ⟨p, none, 0, none⟩

/-! ### Geolocation Resolver -/

structure GeoData where
  country_name : String
  city : Option String
  provider : Option String
deriving DecidableEq

/-- The literal skip list of the geolocation guard in `backend/main.py`:
`['127.0.0.1', 'localhost', 'testclient']`. -/
def geoSkipList : List String := ["127.0.0.1", "localhost", "testclient"]

/-- Geo value recorded when geolocation is skipped: `Unknown`, no provider. -/
def unknownGeo : GeoData := ⟨"Unknown", none, none⟩

/-- Geo value set by the `except` branch of `track_click`:
`{'country_name': 'Unknown', 'city': None, 'provider': 'fallback'}`. -/
def fallbackGeo : GeoData := ⟨"Unknown", none, some "fallback"⟩

/-- Outcome of the geolocation step: the geo data recorded on the click and
whether the external resolver (`get_ip_location`) was invoked at all. -/
structure GeoOutcome where
  geo : GeoData
  providerCalled : Bool
deriving DecidableEq

/-- The geolocation guard of `track_click` (`backend/main.py`, excerpt in
`GEOLOCATION_INVESTIGATION.md` lines 26-38):

  `if ip_address and ip_address not in ['127.0.0.1', 'localhost', 'testclient']:`
  `    location_data = await get_ip_location(ip_address)`

wrapped in `try/except` that degrades to `fallbackGeo`. Python truthiness of
`ip_address` makes `None` and the empty string skip as well. -/
def track_click_geo (lookup : String → Except Unit GeoData)
    (ip : Option String) : GeoOutcome :=
  match ip with
  | none => ⟨unknownGeo, false⟩
  | some s =>
    if s ≠ "" ∧ s ∉ geoSkipList then
      match lookup s with
      | .ok g => ⟨g, true⟩
      | .error _ => ⟨fallbackGeo, true⟩
    else ⟨unknownGeo, false⟩

/-- Modelled from the spec: the claim's class of private or loopback source
IPs — the loopback range `127.0.0.0/8`, the RFC 1918 private ranges `10/8`,
`172.16/12`, `192.168/16`, and the name `localhost`. -/
def isPrivateOrLoopbackIp (s : String) : Bool :=
  s = "localhost" ||
    match (pySplit s ".").map pyInt with
    | [some a, some b, some c, some d] =>
      a ≤ 255 && b ≤ 255 && c ≤ 255 && d ≤ 255 &&
        (a = 127 || a = 10 || (a = 172 && 16 ≤ b && b ≤ 31) ||
         (a = 192 && b = 168))
    | _ => false

/-- Modelled from the spec: `geolocation_client.py` is not in the repository
snapshot; per `GEOLOCATION_INVESTIGATION.md` (lines 88-93) and §4.3,
`get_ip_location` tries an ordered chain of providers, moving to the next one
when a provider fails, and fails only when the chain is exhausted. The second
component counts how many providers were invoked. -/
def resolveChain (providers : List (String → Except Unit GeoData))
    (ip : String) : Except Unit GeoData × Nat :=
  match providers with
  | [] => (.error (), 0)
  | p :: ps =>
    match p ip with
    | .ok g => (.ok g, 1)
    | .error _ =>
      let r := resolveChain ps ip
      (r.1, r.2 + 1)

/-- The geo data `track_click` records for a public IP: the chain's answer,
degraded to `fallbackGeo` by the surrounding `try/except` when every provider
failed — no exception reaches the ingestion caller. -/
def track_click_geo_chain (providers : List (String → Except Unit GeoData))
    (ip : String) : GeoData :=
  match (resolveChain providers ip).1 with
  | .ok g => g
  | .error _ => fallbackGeo

/-! ### Client IP extraction (`get_client_ip`)

From `backend/main.py` (excerpt in `GEOLOCATION_INVESTIGATION.md` lines
63-76). `request.headers.get` yields `None` for an absent header; Python's
`if header:` is false for `None` and for the empty string. -/

structure Request where
  x_forwarded_for : Option String
  x_real_ip : Option String
  client_host : Option String
deriving DecidableEq

/-- Python truthiness of an optional string. -/
def truthyStr : Option String → Bool
  | none => false
  | some s => s ≠ ""

/-- Python `str.strip()`: drop leading and trailing whitespace. -/
def pyStrip (s : String) : String :=
  String.mk (((s.data.dropWhile Char.isWhitespace).reverse.dropWhile
    Char.isWhitespace).reverse)

def get_client_ip (r : Request) : Option String :=
  if truthyStr r.x_forwarded_for then
    some (pyStrip ((pySplit (r.x_forwarded_for.getD "") ",").headD ""))
  else if truthyStr r.x_real_ip then
    r.x_real_ip
  else
    r.client_host

/-- The claim's reading of the priority order, keyed on header *presence*
rather than Python truthiness; compared against `get_client_ip`. -/
def claim_client_ip (r : Request) : Option String :=
  match r.x_forwarded_for with
  | some s => some (pyStrip ((pySplit s ",").headD ""))
  | none =>
    match r.x_real_ip with
    | some t => some t
    | none => r.client_host

/-! ### Session log and `is_first_click` -/

/-- A click as far as session bookkeeping is concerned. -/
structure SClick where
  session_key : String
  is_first : Bool
deriving DecidableEq

/-- Modelled from the spec: `track_session` (in the absent
`temporal_features.py`, wired up as `is_first_click =
session_metrics['is_first_click']` in the `click_tracker_service.py` excerpt
of `WORK_SESSION_SUMMARY.md`) sets `is_first_click` by querying whether any
prior ClickEvent exists with the same `session_key` (§4.5); the click is then
appended to the append-only log. -/
def ingest (log : List SClick) (key : String) : List SClick :=
  log ++ [⟨key, !(log.any (fun c => c.session_key = key))⟩]

/-- The click log reached by ingesting a sequence of session keys, in order,
starting from the empty log: exactly the reachable states of the append-only
log. -/
def buildLog (keys : List String) : List SClick :=
  keys.foldl ingest []

/-- The clicks of the log sharing a session key, in log (and hence
chronological) order. -/
def sessionFilter (log : List SClick) (k : String) : List SClick :=
  log.filter (fun c => c.session_key = k)

/-- The C7 invariant: for every session key present in the log, the earliest
click with that key has `is_first_click = true` and it is the only one. -/
def FirstClickInv (log : List SClick) : Prop :=
  ∀ k : String, sessionFilter log k ≠ [] →
    (∃ c0, (sessionFilter log k).head? = some c0 ∧ c0.is_first = true) ∧
    (sessionFilter log k).countP (fun c => c.is_first) = 1

/-! ### Temporal analytics rollups
(`supabase/migrations/003_temporal_analytics_minimal.sql`) -/

/-- A row of `clicks` with the columns the temporal analytics views read.
Timestamps are seconds since the epoch. -/
structure TClick where
  clicked_at : Nat
  hour_of_day : Option Nat
  day_of_week : Option Nat
  session_id : Nat
  is_first_click : Bool
  is_returning_visitor : Bool
  video_platform : Option String
  video_id : Option String
  ip_address : Nat
deriving DecidableEq

/-- Insert `x` into `l` before the first element `y` with `le x y`
(stable insertion). -/
def insertLe (le : α → α → Bool) (x : α) : List α → List α
  | [] => [x]
  | y :: ys => if le x y then x :: y :: ys else y :: insertLe le x ys

/-- Stable insertion sort by the total boolean relation `le`
(the model of SQL `ORDER BY`). -/
def sortLe (le : α → α → Bool) : List α → List α
  | [] => []
  | x :: xs => insertLe le x (sortLe le xs)

/-- First-occurrence deduplication — each key of a SQL `GROUP BY` once, in
first-appearance order. -/
def dedupFirst [DecidableEq α] : List α → List α
  | [] => []
  | x :: xs => x :: (dedupFirst xs).filter (fun y => y ≠ x)

/-- 90 days in seconds (`INTERVAL '90 days'`). -/
def ninetyDays : Nat := 7776000

/-- `clicked_at > NOW() - INTERVAL '90 days'`, computed over the integers so
an early `now` behaves like SQL's (possibly negative) cutoff. -/
def inLast90Days (now : Nat) (c : TClick) : Bool :=
  (now : Int) - (ninetyDays : Int) < (c.clicked_at : Int)

/-- `CASE day_of_week WHEN 0 THEN 'Monday' ... END` (no `ELSE`: other values
give SQL `NULL`). -/
def dayName : Nat → Option String
  | 0 => some "Monday"
  | 1 => some "Tuesday"
  | 2 => some "Wednesday"
  | 3 => some "Thursday"
  | 4 => some "Friday"
  | 5 => some "Saturday"
  | 6 => some "Sunday"
  | _ => none

/-- A row of the materialized view `mv_hour_heatmap`. -/
structure HeatRow where
  day_of_week : Nat
  hour_of_day : Nat
  total_clicks : Nat
  unique_visitors : Nat
  new_visitors : Nat
  returning_visitors : Nat
  day_name : Option String
deriving DecidableEq

/-- Lexicographic `ORDER BY day_of_week, hour_of_day` on group keys. -/
def heatKeyLe (p q : Nat × Nat) : Bool :=
  p.1 < q.1 || (p.1 = q.1 && p.2 ≤ q.2)

/-- The row of `mv_hour_heatmap` for one `(day_of_week, hour_of_day)` group. -/
def heatRowFor (base : List TClick) (k : Nat × Nat) : HeatRow :=
  let grp := base.filter (fun c =>
    c.day_of_week = some k.1 && c.hour_of_day = some k.2)
  ⟨k.1, k.2, grp.length,
   (dedupFirst (grp.map (fun c => c.session_id))).length,
   grp.countP (fun c => c.is_first_click),
   grp.countP (fun c => c.is_returning_visitor),
   dayName k.1⟩

/-- `mv_hour_heatmap`: clicks of the last 90 days with non-null
`hour_of_day` and `day_of_week`, grouped by `(day_of_week, hour_of_day)` and
ordered by that pair. -/
def mv_hour_heatmap (now : Nat) (log : List TClick) : List HeatRow :=
  let base := log.filter (fun c =>
    c.hour_of_day.isSome && c.day_of_week.isSome && inLast90Days now c)
  let keys := dedupFirst (base.map (fun c =>
    (c.day_of_week.getD 0, c.hour_of_day.getD 0)))
  (sortLe heatKeyLe keys).map (heatRowFor base)

/-- A row of the materialized view `mv_video_sources`. -/
structure VideoRow where
  video_platform : String
  video_id : String
  total_clicks : Nat
  unique_viewers : Nat
  unique_ips : Nat
  new_visitor_clicks : Nat
  returning_visitor_clicks : Nat
  last_clicked_at : Nat
  first_clicked_at : Nat
deriving DecidableEq

/-- The row of `mv_video_sources` for one `(video_platform, video_id)`
group (the group is non-empty whenever the key came from the log). -/
def videoRowFor (base : List TClick) (k : String × String) : VideoRow :=
  let grp := base.filter (fun c =>
    c.video_platform = some k.1 && c.video_id = some k.2)
  ⟨k.1, k.2, grp.length,
   (dedupFirst (grp.map (fun c => c.session_id))).length,
   (dedupFirst (grp.map (fun c => c.ip_address))).length,
   grp.countP (fun c => c.is_first_click),
   grp.countP (fun c => c.is_returning_visitor),
   (grp.map (fun c => c.clicked_at)).foldr Nat.max 0,
   ((grp.map (fun c => c.clicked_at)).min?).getD 0⟩

/-- `ORDER BY total_clicks DESC` (ties keep group order; Postgres leaves tie
order unspecified, the model picks the stable one). -/
def videoRowLe (p q : VideoRow) : Bool :=
  q.total_clicks ≤ p.total_clicks

/-- `mv_video_sources`: clicks of the last 90 days with non-null `video_id`
and `video_platform`, grouped by `(video_platform, video_id)`, ordered by
click count, descending. -/
def mv_video_sources (now : Nat) (log : List TClick) : List VideoRow :=
  let base := log.filter (fun c =>
    c.video_id.isSome && c.video_platform.isSome && inLast90Days now c)
  let keys := dedupFirst (base.map (fun c =>
    (c.video_platform.getD "", c.video_id.getD "")))
  sortLe videoRowLe (keys.map (videoRowFor base))

/-- The two materialized views, as the state the dashboard reads. -/
structure AnalyticsState where
  heatmap : List HeatRow
  videoSources : List VideoRow
deriving DecidableEq

/-- `refresh_temporal_analytics()`: re-runs both materialized view queries
against the click log at evaluation time `now`, replacing the previously
published state. -/
def refresh_temporal_analytics (now : Nat) (log : List TClick)
    (_prev : AnalyticsState) : AnalyticsState :=
  ⟨mv_hour_heatmap now log, mv_video_sources now log⟩

/-! ### Geographic analytics view (`supabase/schema.sql` lines 223-234) -/

/-- A row of `clicks` with the columns `geographic_analytics` reads. -/
structure GClick where
  short_code : String
  country_name : Option String
  country_code : Option String
  city : Option String
  ip_address : Nat
  clicked_at : Nat
deriving DecidableEq

/-- The `GROUP BY` key of `geographic_analytics`. -/
def geoKey (c : GClick) : String × Option String × Option String × Option String :=
  (c.short_code, c.country_name, c.country_code, c.city)

/-- A row of the `geographic_analytics` view. The percentage column is
`ROUND(count / SUM(count) OVER (PARTITION BY short_code) * 100, 2)`,
a rational rounded half-up to two decimals (counts are non-negative). -/
structure GeoRow where
  short_code : String
  country_name : Option String
  country_code : Option String
  city : Option String
  clicks : Nat
  unique_users : Nat
  percentage : Rat
deriving DecidableEq

/-- `ROUND(q, 2)` for non-negative `q`: half-up to two decimals. -/
def round2 (q : Rat) : Rat :=
  (⌊q * 100 + 1 / 2⌋ : Int) / 100

/-- The row of `geographic_analytics` for one group key. -/
def geoRowFor (base : List GClick)
    (k : String × Option String × Option String × Option String) : GeoRow :=
  let grp := base.filter (fun c => geoKey c = k)
  let scTotal := (base.filter (fun c => c.short_code = k.1)).length
  ⟨k.1, k.2.1, k.2.2.1, k.2.2.2, grp.length,
   (dedupFirst (grp.map (fun c => c.ip_address))).length,
   round2 ((grp.length : Rat) / (scTotal : Rat) * 100)⟩

/-- `geographic_analytics`: clicks with non-null `country_name`, grouped by
`(short_code, country_name, country_code, city)` (the view has no `ORDER BY`;
groups appear in first-occurrence order, and, notably, no time filter). -/
def geographic_analytics (log : List GClick) : List GeoRow :=
  let base := log.filter (fun c => c.country_name.isSome)
  (dedupFirst (base.map geoKey)).map (geoRowFor base)

/-- Sum of the per-country rollup click counts of one link. -/
def rollupCountrySum (log : List GClick) (sc : String) : Nat :=
  (((geographic_analytics log).filter (fun r => r.short_code = sc)).map
    (fun r => r.clicks)).sum

/-- Number of ClickEvents of a link, within a closed time range, whose geo
country is non-null — the claim's right-hand side. -/
def clicksWithCountryInRange (log : List GClick) (sc : String)
    (t1 t2 : Nat) : Nat :=
  (log.filter (fun c =>
    c.short_code = sc && c.country_name.isSome &&
      t1 ≤ c.clicked_at && c.clicked_at ≤ t2)).length

/-! ### Click count update (`increment_click_count`,
`supabase/schema.sql` lines 99-107) -/

/-- A row of the `urls` table, with all its columns. -/
structure UrlRow where
  id : Nat
  short_code : String
  original_url : String
  title : Option String
  created_at : Nat
  expires_at : Option Nat
  is_active : Bool
  click_count : Nat
  last_clicked_at : Option Nat
  user_id : Option Nat
  domain : Option String
deriving DecidableEq

/-- `increment_click_count(p_url_id)`:
`UPDATE urls SET click_count = click_count + 1, last_clicked_at = NOW()
WHERE id = p_url_id`. -/
def increment_click_count (now : Nat) (p_url_id : Nat)
    (urls : List UrlRow) : List UrlRow :=
  urls.map (fun r =>
    if r.id = p_url_id then
      { r with click_count := r.click_count + 1, last_clicked_at := some now }
    else r)

/-! ### Concrete data used by the witnesses -/

/-- A two-row `urls` table with distinct primary keys. -/
def urlsW : List UrlRow :=
  [⟨1, "abc1", "https://example.com/a", none, 0, none, true, 5, none, none, none⟩,
   ⟨2, "abc2", "https://example.com/b", none, 0, none, true, 3, none, none, none⟩]

/-- A provider chain whose first provider fails and second succeeds. -/
def provsW : List (String → Except Unit GeoData) :=
  [fun _ => .error (), fun _ => .ok ⟨"Mexico", none, some "ip-api.com"⟩,
   fun _ => .error ()]

/-- A provider chain in which every provider fails. -/
def provsFailW : List (String → Except Unit GeoData) :=
  [fun _ => .error (), fun _ => .error ()]

/-- A click 5 seconds after the epoch, with temporal columns populated. -/
def clickC6 : TClick :=
  ⟨5, some 10, some 2, 1, true, false, some "youtube", some "dQw4w9WgXcQ", 1⟩

/-- One click of link `ab` from Mexico, 100 seconds after the epoch. -/
def gclickW : GClick := ⟨"ab", some "Mexico", some "MX", none, 1, 100⟩

/-! ## Theorems -/

/-- C3 (code bug): the YouTube parser excerpt does an unguarded
`int(params.get('t', [0])[0])`; the referrer
`https://www.youtube.com/watch?v=dQw4w9WgXcQ&t=1m30s` (a real YouTube
timestamp format) makes it raise `ValueError` instead of returning normally
and degrading to `other` / `none`, contradicting the spec's edge-case policy
that malformed URLs must not throw. -/
theorem parse_youtube_url_raises_on_nonnumeric_t :
    parse_youtube_url "https://www.youtube.com/watch?v=dQw4w9WgXcQ&t=1m30s" =
      .error () := by
  rfl

/-- C2 (counterexample): `10.0.0.1` is a private (RFC 1918) source IP, yet
the geolocation guard of `track_click` — which only checks the literal list
`['127.0.0.1', 'localhost', 'testclient']` — does invoke the external
resolver on it, and records that provider's geo rather than `Unknown`. -/
theorem track_click_geo_private_ip_counterexample :
    isPrivateOrLoopbackIp "10.0.0.1" = true ∧
    (track_click_geo (fun _ => .ok ⟨"SomeCountry", none, some "ipapi.co"⟩)
      (some "10.0.0.1")).providerCalled = true ∧
    (track_click_geo (fun _ => .ok ⟨"SomeCountry", none, some "ipapi.co"⟩)
      (some "10.0.0.1")).geo ≠ unknownGeo := by
  refine ⟨rfl, rfl, ?_⟩
  decide

/-- C2 (amended): for a missing or empty source IP, and for the IPs of the
guard's literal skip list (`127.0.0.1`, `localhost`, `testclient`), the
geolocation step never invokes the external resolver and records
`geo = Unknown` with no provider. -/
theorem track_click_geo_skips_listed_ips
    (lookup : String → Except Unit GeoData) (ip : Option String)
    (h : ip = none ∨ ip = some "" ∨ ∃ s, ip = some s ∧ s ∈ geoSkipList) :
    track_click_geo lookup ip = ⟨unknownGeo, false⟩ := by
  rcases h with h | h | ⟨s, h, hs⟩
  · subst h; rfl
  · subst h; rfl
  · subst h
    have hc : ¬(s ≠ "" ∧ s ∉ geoSkipList) := fun hand => hand.2 hs
    simp only [track_click_geo, if_neg hc]

/-- Witness for `track_click_geo_skips_listed_ips` at `127.0.0.1` with a
resolver that would succeed. -/
theorem track_click_geo_skips_listed_ips_witness :
    track_click_geo (fun _ => .ok ⟨"Mexico", none, some "ipapi.co"⟩)
      (some "127.0.0.1") = ⟨unknownGeo, false⟩ :=
  track_click_geo_skips_listed_ips _ _
    (Or.inr (Or.inr ⟨"127.0.0.1", rfl, by decide⟩))

/-- C4: a click whose referer is
`https://www.youtube.com/watch?v=dQw4w9WgXcQ&t=120&feature=share` and whose
source IP is `127.0.0.1` gets `video_attribution = (youtube, dQw4w9WgXcQ,
120 seconds, share)`, and — whatever the external resolver would answer —
geo `Unknown` with no provider call. -/
theorem click_event_youtube_scenario (lookup : String → Except Unit GeoData) :
    video_attribution_of
        "https://www.youtube.com/watch?v=dQw4w9WgXcQ&t=120&feature=share" =
      ⟨.youtube, some "dQw4w9WgXcQ", 120, some "share"⟩ ∧
    track_click_geo lookup (some "127.0.0.1") = ⟨unknownGeo, false⟩ := by
  constructor
  · rfl
  · rfl

/-- C9 (counterexample): a request carrying both proxy headers, with an
*empty* `x-forwarded-for` value, does not use `x-forwarded-for`: Python's
`if forwarded_for:` is false for the empty string, so `get_client_ip` falls
through to `x-real-ip`, while the claim's presence-based reading returns the
first (empty) entry of `x-forwarded-for`. -/
theorem get_client_ip_claim_counterexample :
    get_client_ip ⟨some "", some "203.0.113.5", some "10.0.0.5"⟩ =
      some "203.0.113.5" ∧
    claim_client_ip ⟨some "", some "203.0.113.5", some "10.0.0.5"⟩ = some "" ∧
    get_client_ip ⟨some "", some "203.0.113.5", some "10.0.0.5"⟩ ≠
      claim_client_ip ⟨some "", some "203.0.113.5", some "10.0.0.5"⟩ := by
  refine ⟨rfl, rfl, ?_⟩
  decide

/-- C9 (amended): the client IP is the first comma-separated entry
(stripped) of `x-forwarded-for` when that header is present *and non-empty*;
otherwise `x-real-ip` when present and non-empty; otherwise the direct
connection host (`None` when no connection information exists). In
particular a request carrying both proxy headers with non-empty values uses
`x-forwarded-for`. -/
theorem get_client_ip_priority (r : Request) :
    (∀ s, r.x_forwarded_for = some s → s ≠ "" →
      get_client_ip r = some (pyStrip ((pySplit s ",").headD ""))) ∧
    (truthyStr r.x_forwarded_for = false →
      ∀ t, r.x_real_ip = some t → t ≠ "" → get_client_ip r = some t) ∧
    (truthyStr r.x_forwarded_for = false → truthyStr r.x_real_ip = false →
      get_client_ip r = r.client_host) := by
  refine ⟨?_, ?_, ?_⟩
  · intro s hs hne
    have ht : truthyStr (some s) = true := by simp [truthyStr, hne]
    simp [get_client_ip, hs, ht]
  · intro hf t ht htne
    have htt : truthyStr (some t) = true := by simp [truthyStr, htne]
    simp [get_client_ip, hf, ht, htt]
  · intro hf ht
    simp [get_client_ip, hf, ht]

/-- Witness for `get_client_ip_priority`: both proxy headers present and
non-empty — `x-forwarded-for` wins and its first entry is stripped. -/
theorem get_client_ip_priority_witness :
    get_client_ip ⟨some "1.2.3.4, 5.6.7.8", some "9.9.9.9", none⟩ =
      some "1.2.3.4" := by
  have h := (get_client_ip_priority
    ⟨some "1.2.3.4, 5.6.7.8", some "9.9.9.9", none⟩).1
    "1.2.3.4, 5.6.7.8" rfl (by decide)
  exact h.trans (by decide)

/-- C10: `increment_click_count` preserves the number of rows; the rows
whose `id` is the argument get `click_count` increased by exactly one and
`last_clicked_at` set to now, all their other columns kept (the record
update fixes every other field); every other row is returned unchanged.
With `id` the primary key, exactly the one targeted row changes. -/
theorem increment_click_count_frame (now pid : Nat) (urls : List UrlRow) :
    (increment_click_count now pid urls).length = urls.length ∧
    ∀ (i : Nat) (r : UrlRow), urls[i]? = some r →
      (increment_click_count now pid urls)[i]? =
        some (if r.id = pid then
          { r with click_count := r.click_count + 1,
                   last_clicked_at := some now }
        else r) := by
  constructor
  · simp [increment_click_count]
  · intro i r hr
    simp [increment_click_count, List.getElem?_map, hr]

/-- Witness for `increment_click_count_frame` on the concrete two-row table
`urlsW`, targeting id 1: row 0 is bumped and stamped, row 1 is unchanged. -/
theorem increment_click_count_frame_witness :
    (increment_click_count 50 1 urlsW).length = urlsW.length ∧
    (increment_click_count 50 1 urlsW)[0]? =
      some ⟨1, "abc1", "https://example.com/a", none, 0, none, true, 6,
        some 50, none, none⟩ ∧
    (increment_click_count 50 1 urlsW)[1]? =
      some ⟨2, "abc2", "https://example.com/b", none, 0, none, true, 3,
        none, none, none⟩ := by
  refine ⟨(increment_click_count_frame 50 1 urlsW).1, ?_, ?_⟩
  · exact ((increment_click_count_frame 50 1 urlsW).2 0
      ⟨1, "abc1", "https://example.com/a", none, 0, none, true, 5,
        none, none, none⟩ rfl).trans (by decide)
  · exact ((increment_click_count_frame 50 1 urlsW).2 1
      ⟨2, "abc2", "https://example.com/b", none, 0, none, true, 3,
        none, none, none⟩ rfl).trans (by decide)

/-- C5: the resolver chain invokes the providers in order — when the first
`n` providers fail and provider `n` (0-based) succeeds with `g`, the result
is `g` and exactly the first `n + 1` providers were called; when every
provider fails, all of them were called and `track_click` still records
`geo = Unknown` (the `fallback` value) with no exception reaching the
ingestion caller. -/
theorem resolve_chain_order (providers : List (String → Except Unit GeoData))
    (ip : String) :
    (∀ (n : Nat) (hn : n < providers.length) (g : GeoData),
      (∀ (i : Nat) (hi : i < n),
        (providers.get ⟨i, by omega⟩) ip = .error ()) →
      (providers.get ⟨n, hn⟩) ip = .ok g →
      resolveChain providers ip = (.ok g, n + 1)) ∧
    ((∀ (i : Nat) (hi : i < providers.length),
        (providers.get ⟨i, hi⟩) ip = .error ()) →
      resolveChain providers ip = (.error (), providers.length) ∧
      track_click_geo_chain providers ip = fallbackGeo) := by
  induction providers with
  | nil =>
    constructor
    · intro n hn
      exact absurd hn (by simp)
    · intro _
      exact ⟨rfl, rfl⟩
  | cons p ps ih =>
    constructor
    · intro n hn g hfail hok
      cases n with
      | zero =>
        have hp : p ip = .ok g := hok
        simp [resolveChain, hp]
      | succ m =>
        have hp : p ip = .error () := hfail 0 (Nat.succ_pos m)
        have hrec := ih.1 m (by simpa using hn) g
          (fun i hi => by
            have := hfail (i + 1) (by omega)
            simpa using this)
          (by simpa using hok)
        simp [resolveChain, hp, hrec]
    · intro hall
      have hp : p ip = .error () := hall 0 (by simp)
      have hrec := ih.2 (fun i hi => by
        have := hall (i + 1) (by simpa using Nat.succ_lt_succ hi)
        simpa using this)
      constructor
      · simp [resolveChain, hp, hrec.1]
      · simp [track_click_geo_chain, resolveChain, hp, hrec.1]

/-- Witness for `resolve_chain_order`: a chain whose second provider answers
calls exactly two providers and returns its answer; a chain of two failing
providers calls both and records the `Unknown` fallback. -/
theorem resolve_chain_order_witness :
    resolveChain provsW "8.8.8.8" =
      (.ok ⟨"Mexico", none, some "ip-api.com"⟩, 2) ∧
    (resolveChain provsFailW "8.8.8.8" = (.error (), provsFailW.length) ∧
      track_click_geo_chain provsFailW "8.8.8.8" = fallbackGeo) := by
  constructor
  · exact (resolve_chain_order provsW "8.8.8.8").1 1 (by decide)
      ⟨"Mexico", none, some "ip-api.com"⟩
      (fun i hi => by
        have : i = 0 := by omega
        subst this
        rfl)
      rfl
  · exact (resolve_chain_order provsFailW "8.8.8.8").2
      (fun i hi => by
        have : i = 0 ∨ i = 1 := by
          have : i < 2 := by simpa [provsFailW] using hi
          omega
        rcases this with h | h <;> subst h <;> rfl)

/-- Ingesting a key appends (exactly when the key matches) one click whose
`is_first` flag records the absence of any prior click with that key. -/
theorem sessionFilter_ingest (log : List SClick) (key' k : String) :
    sessionFilter (ingest log key') k =
      sessionFilter log k ++
        (if key' = k then
          [⟨key', !(log.any (fun c => c.session_key = key'))⟩]
        else []) := by
  by_cases h : key' = k <;>
    simp [sessionFilter, ingest, List.filter_append, h]

/-- No element of the log has key `k` exactly when the filtered log is
empty. -/
theorem any_key_false_iff (log : List SClick) (k : String) :
    (log.any (fun c => c.session_key = k) = false) ↔
      sessionFilter log k = [] := by
  simp [sessionFilter, List.any_eq_false, List.filter_eq_nil_iff]

/-- The C7 invariant is preserved by ingesting any session key. -/
theorem firstClickInv_ingest {log : List SClick} (h : FirstClickInv log)
    (key' : String) : FirstClickInv (ingest log key') := by
  intro k hne
  rw [sessionFilter_ingest] at hne ⊢
  by_cases hk : key' = k
  · subst hk
    simp only [if_pos rfl] at hne ⊢
    by_cases hold : sessionFilter log key' = []
    · have hany : log.any (fun c => c.session_key = key') = false :=
        (any_key_false_iff log key').mpr hold
      rw [hold, List.nil_append]
      refine ⟨⟨⟨key', true⟩, ?_, rfl⟩, ?_⟩
      · simp [hany]
      · simp [hany]
    · have hany : log.any (fun c => c.session_key = key') = true := by
        cases hh : log.any (fun c => c.session_key = key') with
        | false => exact absurd ((any_key_false_iff log key').mp hh) hold
        | true => rfl
      obtain ⟨⟨c0, hc0, hc0f⟩, hcnt⟩ := h key' hold
      obtain ⟨a, t, hat⟩ := List.exists_cons_of_ne_nil hold
      refine ⟨⟨c0, ?_, hc0f⟩, ?_⟩
      · rw [hat] at hc0 ⊢
        simpa using hc0
      · rw [List.countP_append, hcnt]
        simp [hany]
  · simp only [if_neg hk, List.append_nil] at hne ⊢
    exact h k hne

/-- The C7 invariant holds of every log built by the ingestion fold. -/
theorem buildLog_firstClickInv_aux (keys : List String) (log : List SClick)
    (h : FirstClickInv log) : FirstClickInv (keys.foldl ingest log) := by
  induction keys generalizing log with
  | nil => exact h
  | cons k' ks ih => exact ih _ (firstClickInv_ingest h k')

/-- The empty log satisfies the C7 invariant vacuously. -/
theorem firstClickInv_nil : FirstClickInv [] := by
  intro k hne
  simp [sessionFilter] at hne

/-- C7: in every reachable state of the append-only click log, for each
session key present, the earliest click with that key has
`is_first_click = true`, and it is the only one — every subsequent click
sharing the key has `is_first_click = false`. -/
theorem is_first_click_once_per_session (keys : List String) (k : String)
    (hne : sessionFilter (buildLog keys) k ≠ []) :
    (∃ c0, (sessionFilter (buildLog keys) k).head? = some c0 ∧
      c0.is_first = true) ∧
    (sessionFilter (buildLog keys) k).countP (fun c => c.is_first) = 1 :=
  buildLog_firstClickInv_aux keys [] firstClickInv_nil k hne

/-- Witness for `is_first_click_once_per_session`: the log built from keys
`a, b, a` — the first `a` click is flagged first, the second is not. -/
theorem is_first_click_once_per_session_witness :
    (∃ c0, (sessionFilter (buildLog ["a", "b", "a"]) "a").head? = some c0 ∧
      c0.is_first = true) ∧
    (sessionFilter (buildLog ["a", "b", "a"]) "a").countP
      (fun c => c.is_first) = 1 :=
  is_first_click_once_per_session ["a", "b", "a"] "a" (by decide)

/-- C6 (counterexample): the materialized view queries filter on
`clicked_at > NOW() - INTERVAL '90 days'`, so running the refresh twice with
no new ClickEvents but at different evaluation times is *not* idempotent — a
click aged past the 90-day window between the two runs drops out of the
rollups, so the second refresh does not leave the rollups byte-identical. -/
theorem refresh_not_idempotent_across_time :
    refresh_temporal_analytics 7776010 [clickC6]
        (refresh_temporal_analytics 7776000 [clickC6] ⟨[], []⟩) ≠
      refresh_temporal_analytics 7776000 [clickC6] ⟨[], []⟩ := by
  decide

/-- C6 (amended): the refresh recomputes both materialized views purely from
the click log and the evaluation time, ignoring the previously published
state; hence at any fixed evaluation time, running it twice with no new
ClickEvents yields rollups byte-identical to the first run's output (and the
result never depends on the state it replaces). -/
theorem refresh_idempotent_at_fixed_time (now : Nat) (log : List TClick)
    (s s' : AnalyticsState) :
    refresh_temporal_analytics now log (refresh_temporal_analytics now log s) =
      refresh_temporal_analytics now log s ∧
    refresh_temporal_analytics now log s = refresh_temporal_analytics now log s' :=
  ⟨rfl, rfl⟩

/-- `dedupFirst` keeps exactly the members of the input. -/
theorem mem_dedupFirst [DecidableEq α] (a : α) (l : List α) :
    a ∈ dedupFirst l ↔ a ∈ l := by
  induction l with
  | nil => simp [dedupFirst]
  | cons x xs ih =>
    by_cases h : a = x
    · subst h; simp [dedupFirst]
    · simp [dedupFirst, List.mem_filter, h, ih]

/-- `dedupFirst` produces a duplicate-free list. -/
theorem nodup_dedupFirst [DecidableEq α] (l : List α) :
    (dedupFirst l).Nodup := by
  induction l with
  | nil => simp [dedupFirst]
  | cons x xs ih =>
    rw [dedupFirst, List.nodup_cons]
    refine ⟨fun hmem => ?_, List.Nodup.filter _ ih⟩
    simp [List.mem_filter] at hmem

/-- Sums of pointwise sums split. -/
theorem sum_map_add (g g' : κ → Nat) (l : List κ) :
    (l.map (fun k => g k + g' k)).sum = (l.map g).sum + (l.map g').sum := by
  induction l with
  | nil => rfl
  | cons x xs ih =>
    simp only [List.map_cons, List.sum_cons, ih]
    omega

/-- Over a duplicate-free list, the sum of the indicator of `x` is `1` when
`x` is a member and `0` otherwise. -/
theorem sum_indicator [DecidableEq κ] (ks : List κ) (x : κ) (hnd : ks.Nodup) :
    (ks.map (fun k => if x = k then 1 else 0)).sum =
      if x ∈ ks then 1 else 0 := by
  induction ks with
  | nil => simp
  | cons y ys ih =>
    obtain ⟨hy, hnd'⟩ := List.nodup_cons.mp hnd
    by_cases hxy : x = y
    · subst hxy
      simp [List.map_cons, List.sum_cons, ih hnd', hy]
    · simp [List.map_cons, List.sum_cons, ih hnd', hxy, List.mem_cons]

/-- Grouped counting: summing, over a duplicate-free key list covering a
list's keys and restricted by a key predicate, the size of each key's group
gives the size of the predicate's whole slice. -/
theorem sum_counts_aux {α κ : Type} [DecidableEq κ] (f : α → κ) (p : κ → Bool)
    (ks : List κ) (hnd : ks.Nodup) :
    ∀ l : List α, (∀ a ∈ l, f a ∈ ks) →
      ((ks.filter p).map
        (fun k => (l.filter (fun a => f a = k)).length)).sum =
        (l.filter (fun a => p (f a))).length := by
  intro l
  induction l with
  | nil =>
    intro _
    simp only [List.filter_nil, List.length_nil]
    apply List.sum_eq_zero
    intro x hx
    simp only [List.mem_map] at hx
    obtain ⟨k, _, hk⟩ := hx
    exact hk.symm
  | cons a l ih =>
    intro hcov
    have hfa : f a ∈ ks := hcov a (List.mem_cons_self a l)
    have hcov' : ∀ x ∈ l, f x ∈ ks :=
      fun x hx => hcov x (List.mem_cons_of_mem a hx)
    have hstep : ∀ k ∈ ks.filter p,
        ((a :: l).filter (fun x => f x = k)).length =
          (if f a = k then 1 else 0) +
            (l.filter (fun x => f x = k)).length := by
      intro k _
      by_cases h : f a = k
      · simp [List.filter_cons, h]
        omega
      · simp [List.filter_cons, h]
    calc ((ks.filter p).map
          (fun k => ((a :: l).filter (fun x => f x = k)).length)).sum
        = ((ks.filter p).map (fun k => (if f a = k then 1 else 0) +
            (l.filter (fun x => f x = k)).length)).sum := by
          rw [List.map_congr_left hstep]
      _ = ((ks.filter p).map (fun k => if f a = k then 1 else 0)).sum +
          ((ks.filter p).map
            (fun k => (l.filter (fun x => f x = k)).length)).sum :=
          sum_map_add _ _ _
      _ = (if p (f a) = true then 1 else 0) +
          (l.filter (fun x => p (f x))).length := by
          rw [sum_indicator _ _ (List.Nodup.filter p hnd), ih hcov']
          congr 1
          by_cases hp : p (f a) = true
          · simp [List.mem_filter, hfa, hp]
          · simp [List.mem_filter, hp]
      _ = ((a :: l).filter (fun x => p (f x))).length := by
          by_cases hp : p (f a) = true
          · simp [List.filter_cons, hp]
            omega
          · simp [List.filter_cons, hp]

/-- C8 (counterexample): the `geographic_analytics` view is not
time-filtered, so the per-country rollup sum cannot equal the in-range click
count *for every time range*: one Mexican click at `t = 100` is counted by
the rollup but lies outside the range `[0, 50]`. -/
theorem geographic_rollup_time_range_counterexample :
    rollupCountrySum [gclickW] "ab" = 1 ∧
    clicksWithCountryInRange [gclickW] "ab" 0 50 = 0 ∧
    rollupCountrySum [gclickW] "ab" ≠
      clicksWithCountryInRange [gclickW] "ab" 0 50 := by
  refine ⟨by decide, by decide, by decide⟩

/-- C8 (amended): over the full history — the `geographic_analytics` view
carries no time filter — the sum over all per-country rows of a link's
rollup click counts equals the number of that link's ClickEvents whose geo
country is non-null. -/
theorem geographic_rollup_sum (log : List GClick) (sc : String) :
    rollupCountrySum log sc =
      (log.filter (fun c =>
        c.short_code = sc && c.country_name.isSome)).length := by
  simp only [rollupCountrySum, geographic_analytics]
  rw [List.filter_map, List.map_map]
  rw [show ((fun r : GeoRow => decide (r.short_code = sc)) ∘ geoRowFor
        (log.filter (fun c => c.country_name.isSome))) =
      (fun k : String × Option String × Option String × Option String =>
        decide (k.1 = sc)) from rfl]
  rw [show ((fun r : GeoRow => r.clicks) ∘ geoRowFor
        (log.filter (fun c => c.country_name.isSome))) =
      (fun k => ((log.filter (fun c => c.country_name.isSome)).filter
        (fun c => geoKey c = k)).length) from rfl]
  rw [sum_counts_aux geoKey
    (fun k : String × Option String × Option String × Option String =>
      decide (k.1 = sc))
    (dedupFirst ((log.filter (fun c => c.country_name.isSome)).map geoKey))
    (nodup_dedupFirst _)
    (log.filter (fun c => c.country_name.isSome))
    (fun a ha => (mem_dedupFirst _ _).mpr (List.mem_map_of_mem geoKey ha))]
  rw [List.filter_filter]
  rfl

/-- All eight working variables of a hash state below `2 ^ 32`. -/
def HBounded (st : Hash8) : Prop :=
  st.a < w32 ∧ st.b < w32 ∧ st.c < w32 ∧ st.d < w32 ∧
  st.e < w32 ∧ st.f < w32 ∧ st.g < w32 ∧ st.hh < w32

/-- The block compression yields a bounded state (every component is reduced
`% w32`), whatever the incoming state was. -/
theorem sha256Block_bounded (st : Hash8) (block : List Nat) :
    HBounded (sha256Block st block) := by
  have hp : 0 < w32 := by norm_num [w32]
  exact ⟨Nat.mod_lt _ hp, Nat.mod_lt _ hp, Nat.mod_lt _ hp, Nat.mod_lt _ hp,
    Nat.mod_lt _ hp, Nat.mod_lt _ hp, Nat.mod_lt _ hp, Nat.mod_lt _ hp⟩

/-- Folding the compression over any block list preserves boundedness. -/
theorem foldl_sha256Block_bounded (blocks : List (List Nat)) (st : Hash8)
    (h : HBounded st) : HBounded (blocks.foldl sha256Block st) := by
  induction blocks generalizing st with
  | nil => exact h
  | cons b bs ih =>
    rw [List.foldl_cons]
    exact ih _ (sha256Block_bounded st b)

/-- The SHA-256 digest value is below `2 ^ 256`. -/
theorem sha256_lt (msg : List Nat) : sha256 msg < 2 ^ 256 := by
  have hb : HBounded (sha256State msg) :=
    foldl_sha256Block_bounded _ _ (by norm_num [HBounded, sha256InitH, w32])
  unfold sha256
  generalize hst : sha256State msg = st at hb ⊢
  obtain ⟨h1, h2, h3, h4, h5, h6, h7, h8⟩ := hb
  unfold hash8ToNat
  unfold w32 at h1 h2 h3 h4 h5 h6 h7 h8
  norm_num
  omega

/-- The digest, as an element of the finite type `Fin (2 ^ 256)`, of the
session-key string of bucket `b` for empty ip and user-agent. -/
def bucketDigestFin (b : Nat) : Fin (2 ^ 256) :=
  ⟨sha256 (strBytes (sessionKeyString "" "" b)), sha256_lt _⟩

/-- C1 (counterexample): it is not true that timestamps in different
30-minute buckets always get different session keys — `generate_session_id`
truncates a SHA-256 hex digest to 16 characters (64 bits), and a function
into that finite range cannot be injective on the unbounded bucket index:
some two distinct buckets collide on the full digest, hence on the session
key. -/
theorem generate_session_id_not_injective_across_buckets :
    ¬ (∀ (ip ua : String) (t1 t2 : Nat),
        timeBucket t1 30 ≠ timeBucket t2 30 →
        generate_session_id ip ua t1 ≠ generate_session_id ip ua t2) := by
  intro hcl
  obtain ⟨b1, b2, hne, heq⟩ :=
    Finite.exists_ne_map_eq_of_infinite bucketDigestFin
  have hb1 : timeBucket (1800 * b1) 30 = b1 := by
    simp only [timeBucket]
    norm_num
  have hb2 : timeBucket (1800 * b2) 30 = b2 := by
    simp only [timeBucket]
    norm_num
  apply hcl "" "" (1800 * b1) (1800 * b2) (by rw [hb1, hb2]; exact hne)
  unfold generate_session_id
  rw [hb1, hb2]
  have hdig : sha256 (strBytes (sessionKeyString "" "" b1)) =
      sha256 (strBytes (sessionKeyString "" "" b2)) :=
    congrArg Fin.val heq
  rw [hdig]

/-- `Nat.digitChar` is injective on decimal digits. -/
theorem digitChar_inj_lt10 :
    ∀ a, a < 10 → ∀ b, b < 10 → Nat.digitChar a = Nat.digitChar b → a = b := by
  decide

/-- Mapping `Nat.digitChar` over lists of decimal digits is injective. -/
theorem map_digitChar_inj :
    ∀ l1 l2 : List Nat, (∀ x ∈ l1, x < 10) → (∀ x ∈ l2, x < 10) →
      l1.map Nat.digitChar = l2.map Nat.digitChar → l1 = l2 := by
  intro l1
  induction l1 with
  | nil =>
    intro l2 _ _ h
    cases l2 with
    | nil => rfl
    | cons y ys => simp at h
  | cons x xs ih =>
    intro l2 h1 h2 h
    cases l2 with
    | nil => simp at h
    | cons y ys =>
      simp only [List.map_cons, List.cons.injEq] at h
      have hx := h1 x (List.mem_cons_self x xs)
      have hy := h2 y (List.mem_cons_self y ys)
      have hxy := digitChar_inj_lt10 x hx y hy h.1
      subst hxy
      rw [ih ys (fun z hz => h1 z (List.mem_cons_of_mem x hz))
        (fun z hz => h2 z (List.mem_cons_of_mem x hz)) h.2]

/-- The decimal rendering of naturals is injective. -/
theorem decChars_inj (m n : Nat) (h : decChars m = decChars n) : m = n := by
  by_cases hm : m = 0 <;> by_cases hn : n = 0
  · rw [hm, hn]
  · exfalso
    rw [hm] at h
    simp only [decChars, if_pos rfl, if_neg hn] at h
    have hmap : (Nat.digits 10 n).map Nat.digitChar = ['0'] := by
      have := congrArg List.reverse h
      simpa using this.symm
    have hdig : Nat.digits 10 n = [0] :=
      map_digitChar_inj _ [0]
        (fun x hx => Nat.digits_lt_base (by norm_num) hx)
        (by simp) hmap
    have : n = 0 := by
      have := Nat.ofDigits_digits 10 n
      rw [hdig] at this
      simpa [Nat.ofDigits] using this.symm
    exact hn this
  · exfalso
    rw [hn] at h
    simp only [decChars, if_pos rfl, if_neg hm] at h
    have hmap : (Nat.digits 10 m).map Nat.digitChar = ['0'] := by
      have := congrArg List.reverse h
      simpa using this
    have hdig : Nat.digits 10 m = [0] :=
      map_digitChar_inj _ [0]
        (fun x hx => Nat.digits_lt_base (by norm_num) hx)
        (by simp) hmap
    have : m = 0 := by
      have := Nat.ofDigits_digits 10 m
      rw [hdig] at this
      simpa [Nat.ofDigits] using this.symm
    exact hm this
  · simp only [decChars, if_neg hm, if_neg hn] at h
    have hmap : (Nat.digits 10 m).map Nat.digitChar =
        (Nat.digits 10 n).map Nat.digitChar :=
      List.reverse_injective h
    have hdig : Nat.digits 10 m = Nat.digits 10 n :=
      map_digitChar_inj _ _
        (fun x hx => Nat.digits_lt_base (by norm_num) hx)
        (fun x hx => Nat.digits_lt_base (by norm_num) hx) hmap
    calc m = Nat.ofDigits 10 (Nat.digits 10 m) := (Nat.ofDigits_digits 10 m).symm
      _ = Nat.ofDigits 10 (Nat.digits 10 n) := by rw [hdig]
      _ = n := Nat.ofDigits_digits 10 n

/-- `pyStr` is injective. -/
theorem pyStr_inj {m n : Nat} (h : pyStr m = pyStr n) : m = n :=
  decChars_inj m n (congrArg String.data h)

/-- Appending to a fixed string on the left is injective. -/
theorem str_append_left_cancel {a x y : String} (h : a ++ x = a ++ y) :
    x = y := by
  have hd : a.data ++ x.data = a.data ++ y.data := by
    have := congrArg String.data h
    simpa [String.data_append] using this
  have hxy := List.append_cancel_left hd
  exact congrArg String.mk hxy

/-- For fixed ip and user-agent, distinct buckets give distinct pre-hash
session-key strings. -/
theorem sessionKeyString_inj_bucket (ip ua : String) {b1 b2 : Nat}
    (h : sessionKeyString ip ua b1 = sessionKeyString ip ua b2) : b1 = b2 := by
  apply pyStr_inj
  apply str_append_left_cancel (a := ip ++ "_" ++ ua ++ "_")
  simpa [sessionKeyString, String.append_assoc] using h

/-- C1 (amended): `generate_session_id` is a pure deterministic function of
(ip, user-agent, 30-minute time bucket): two timestamps in the same bucket
always give the same session key; and two timestamps in different buckets
always produce different *hash inputs* (the pre-hash session-key strings
differ — the truncated SHA-256 digests themselves can collide, as the
counterexample shows they must). -/
theorem generate_session_id_bucket_behavior (ip ua : String) (t1 t2 : Nat) :
    (timeBucket t1 30 = timeBucket t2 30 →
      generate_session_id ip ua t1 = generate_session_id ip ua t2) ∧
    (timeBucket t1 30 ≠ timeBucket t2 30 →
      sessionKeyString ip ua (timeBucket t1 30) ≠
        sessionKeyString ip ua (timeBucket t2 30)) := by
  constructor
  · intro h
    unfold generate_session_id
    rw [h]
  · intro h hk
    exact h (sessionKeyString_inj_bucket ip ua hk)

/-- Witness for `generate_session_id_bucket_behavior`: timestamps 100 and
200 share bucket 0 and get equal keys; timestamps 100 and 3600 fall in
buckets 0 and 2 and get different hash inputs. -/
theorem generate_session_id_bucket_behavior_witness :
    generate_session_id "127.0.0.1" "Mozilla/5.0" 100 =
      generate_session_id "127.0.0.1" "Mozilla/5.0" 200 ∧
    sessionKeyString "127.0.0.1" "Mozilla/5.0" (timeBucket 100 30) ≠
      sessionKeyString "127.0.0.1" "Mozilla/5.0" (timeBucket 3600 30) :=
  ⟨(generate_session_id_bucket_behavior "127.0.0.1" "Mozilla/5.0" 100 200).1
      (by decide),
   (generate_session_id_bucket_behavior "127.0.0.1" "Mozilla/5.0" 100 3600).2
      (by decide)⟩

end LinkProxy
